import Mathlib

/-!
# Verification of the gRPC ticket service (repository + dispatcher layers)

Shallow embedding of the repository `database/postgres.go` (Entity Repository)
and the gRPC server `ticket-service-db/main.go` (Operation Dispatcher) of the
`ayush-pandya/gRPC` ticket-management service.

Modelling conventions:
* Go strings are Lean `String`s (valid Unicode; protobuf `string` fields are
  required to be valid UTF-8 on the wire).
* Timestamps (`time.Time`) are `Nat`.
* `sql.NullString` is the two-field structure `NullString` (string + valid).
* The PostgreSQL `tickets` table is a `List Row`; a `Row` holds the column
  values, with the `tags` JSONB column modelled as the JSON text written to it
  (Go writes `string(json.Marshal(tags))`; jsonb canonical re-spacing is
  abstracted away - Go's decoder is whitespace-insensitive, so this does not
  change any observable result).
* `json.Marshal` / `json.Unmarshal` for `[]string` are modelled by the
  executable `marshalTags` / `unmarshalTags` below, following Go's
  `encoding/json` escaping rules (HTML-escaping encoder; `\uXXXX`, `\n`, `\r`,
  `\t`, `\"`, `\\` escapes).  A nil Go slice marshals to `null`; a Lean
  `List` cannot distinguish nil from empty, so `marshalTags [] = "[]"` (the
  non-nil empty-slice encoding); `unmarshalTags` accepts both `null` and `[]`
  as the empty sequence, exactly as Go's decoder does.
-/

/-! ## Go-style JSON encoding of string arrays (`encoding/json` for `[]string`) -/

/-- Lowercase hex digit, as emitted by Go's `encoding/json` escaper. -/
def hexDigitChar (n : Nat) : Char :=
  if n < 10 then Char.ofNat (48 + n) else Char.ofNat (97 + n - 10)

/-- Encoding of a single character inside a JSON string literal, following
Go's `encoding/json` with its default HTML escaping: `"` `\` `\n` `\r` `\t`
get two-character escapes; `<` `>` `&` and control characters get `\u00xx`;
U+2028/U+2029 get six-character u-escapes; everything else is emitted verbatim. -/
def encChar (c : Char) : List Char :=
  if c = '"' then ['\\', '"']
  else if c = '\\' then ['\\', '\\']
  else if c = '\n' then ['\\', 'n']
  else if c = '\r' then ['\\', 'r']
  else if c = '\t' then ['\\', 't']
  else if c = '<' ∨ c = '>' ∨ c = '&' ∨ c.toNat < 0x20 then
    ['\\', 'u', '0', '0', hexDigitChar (c.toNat / 16), hexDigitChar (c.toNat % 16)]
  else if c.toNat = 0x2028 ∨ c.toNat = 0x2029 then
    ['\\', 'u', '2', '0', '2', hexDigitChar (c.toNat % 16)]
  else [c]

/-- Encoding of the body of a JSON string literal. -/
def encStr (s : List Char) : List Char := s.flatMap encChar

/-- A complete JSON string literal: `"` body `"`. -/
def encTag (t : List Char) : List Char := '"' :: encStr t ++ ['"']

/-- Model of `json.Marshal` for a `[]string`, at the character-list level: a compact
JSON array of string literals (Go emits no whitespace). -/
def marshalTagsL : List (List Char) → List Char
  | [] => ['[', ']']
  | t :: ts => '[' :: encTag t ++ ts.flatMap (fun u => ',' :: encTag u) ++ [']']

/-- Model of `json.Marshal` for the ticket's tags (`[]string` to JSON text). -/
def marshalTags (ts : List String) : String := String.mk (marshalTagsL (ts.map String.data))

/-- One hexadecimal digit, as accepted by Go's `\uXXXX` decoder. -/
def parseHexDigit (c : Char) : Option Nat :=
  if '0' ≤ c ∧ c ≤ '9' then some (c.toNat - 48)
  else if 'a' ≤ c ∧ c ≤ 'f' then some (c.toNat - 87)
  else if 'A' ≤ c ∧ c ≤ 'F' then some (c.toNat - 55)
  else none

/-- Go's two-character JSON escapes (`\"`, `\\`, `\/`, `\b`, `\f`, `\n`,
`\r`, `\t`); anything else after a backslash (other than `\u`) is invalid. -/
def escChar (e : Char) : Option Char :=
  if e = '"' then some '"'
  else if e = '\\' then some '\\'
  else if e = '/' then some '/'
  else if e = 'b' then some (Char.ofNat 8)
  else if e = 'f' then some (Char.ofNat 12)
  else if e = 'n' then some '\n'
  else if e = 'r' then some '\r'
  else if e = 't' then some '\t'
  else none

/-- Decoder for the body of a JSON string literal (the part after the opening
`"`), following Go's `encoding/json` unquoting: two-character escapes,
`\uXXXX` (an unpaired surrogate decodes to U+FFFD), raw control characters
are rejected.  Returns the decoded characters and the unconsumed suffix. -/
def parseStrBody : List Char → Option (List Char × List Char)
  | [] => none
  | '"' :: rest => some ([], rest)
  | '\\' :: 'u' :: h1 :: h2 :: h3 :: h4 :: rest =>
    match parseHexDigit h1, parseHexDigit h2, parseHexDigit h3, parseHexDigit h4 with
    | some d1, some d2, some d3, some d4 =>
      let n := ((d1 * 16 + d2) * 16 + d3) * 16 + d4
      let ch := if n < 0xd800 ∨ 0xe000 ≤ n then Char.ofNat n else Char.ofNat 0xfffd
      match parseStrBody rest with
      | some (s, r) => some (ch :: s, r)
      | none => none
    | _, _, _, _ => none
  | '\\' :: e :: rest =>
    match escChar e, parseStrBody rest with
    | some ch, some (s, r) => some (ch :: s, r)
    | _, _ => none
  | c :: rest =>
    if c.toNat < 0x20 then none
    else
      match parseStrBody rest with
      | some (s, r) => some (c :: s, r)
      | none => none

/-- The parser `parseStrBody` consumes at least one character beyond the returned rest. -/
theorem parseStrBody_length : ∀ (l s r : List Char),
    parseStrBody l = some (s, r) → r.length < l.length := by
  intro l
  induction l using parseStrBody.induct <;> intro s r h <;>
    simp_all [parseStrBody] <;>
    omega

/-- Decoder for the items of a non-empty JSON array of strings: a string
literal, then either `,` and more items or the closing `]`.  Returns the
decoded strings and the unconsumed suffix. -/
def parseItems (l : List Char) : Option (List (List Char) × List Char) :=
  match l with
  | '"' :: rest =>
    match h : parseStrBody rest with
    | none => none
    | some (s, rest2) =>
      match h2 : rest2 with
      | ',' :: rest3 =>
        match parseItems rest3 with
        | some (ss, r) => some (s :: ss, r)
        | none => none
      | ']' :: rest3 => some ([s], rest3)
      | _ => none
  | _ => none
termination_by l.length
decreasing_by
  have := parseStrBody_length rest _ _ h
  simp_all
  omega

/-- Decoder for a JSON array of strings: `[]` or `[` items.  Returns the
decoded strings and the unconsumed suffix. -/
def parseArr (l : List Char) : Option (List (List Char) × List Char) :=
  match l with
  | '[' :: ']' :: rest => some ([], rest)
  | '[' :: rest => parseItems rest
  | _ => none

/-- Model of `json.Unmarshal` of the stored tags column into a `[]string`, at the
character-list level.  JSON `null` leaves the nil slice unchanged (empty
sequence); otherwise the text must be exactly one string array. -/
def unmarshalTagsL (l : List Char) : Option (List (List Char)) :=
  if l = ['n', 'u', 'l', 'l'] then some []
  else
    match parseArr l with
    | some (ts, []) => some ts
    | _ => none

/-- Model of `json.Unmarshal` of the stored tags text into the ticket's tags. -/
def unmarshalTags (s : String) : Option (List String) :=
  (unmarshalTagsL s.data).map (List.map String.mk)

/-- Decoding inverts the hex-digit encoder on digit values. -/
theorem parseHexDigit_hexDigitChar (n : Nat) (h : n < 16) :
    parseHexDigit (hexDigitChar n) = some n := by
  interval_cases n <;> decide

/-- Decoding a JSON string body inverts the encoder: the encoded body
followed by the closing quote parses back to the original characters. -/
theorem parseStrBody_encStr : ∀ (s rest : List Char),
    parseStrBody (encStr s ++ '"' :: rest) = some (s, rest) := by
  intro s
  induction s with
  | nil => intro rest; simp [encStr, parseStrBody]
  | cons c s ih =>
    intro rest
    have hflat : encStr (c :: s) = encChar c ++ encStr s := by simp [encStr]
    rw [hflat, List.append_assoc]
    have h0 : parseHexDigit '0' = some 0 := by decide
    have h2c : parseHexDigit '2' = some 2 := by decide
    unfold encChar
    split_ifs with h1 h2 h3 h4 h5 h6 h7
    · subst h1; simp [parseStrBody, escChar, ih]
    · subst h2; simp [parseStrBody, escChar, ih]
    · subst h3; simp [parseStrBody, escChar, ih]
    · subst h4; simp [parseStrBody, escChar, ih]
    · subst h5; simp [parseStrBody, escChar, ih]
    · have hd1 := parseHexDigit_hexDigitChar (c.toNat / 16) (by
        rcases h6 with hc | hc | hc | hc <;> first | (subst hc; decide) | omega)
      have hd2 := parseHexDigit_hexDigitChar (c.toNat % 16) (by omega)
      have hlt : c.toNat < 55296 := by
        rcases h6 with hc | hc | hc | hc <;> first | (subst hc; decide) | omega
      have hn : ((0 * 16 + 0) * 16 + c.toNat / 16) * 16 + c.toNat % 16 = c.toNat := by
        omega
      simp [parseStrBody, h0, hd1, hd2, hn, ih, Or.inl hlt, Char.ofNat_toNat]
      rw [show c.toNat / 16 * 16 + c.toNat % 16 = c.toNat from by omega,
          if_pos (Or.inl hlt : c.toNat < 55296 ∨ 57344 ≤ c.toNat)]
      exact Char.ofNat_toNat c
    · rcases h7 with hc | hc <;>
        simp [parseStrBody, h0, h2c, hc, parseHexDigit_hexDigitChar, ih, Char.ofNat_toNat] <;>
        rw [← hc, Char.ofNat_toNat]
    · have h32 : ¬c.toNat < 32 := by
        intro hlt; exact h6 (Or.inr (Or.inr (Or.inr hlt)))
      simp [parseStrBody, h1, h2, h32, ih]

/-- Decoding the items of an encoded non-empty array inverts the encoder. -/
theorem parseItems_enc : ∀ (ts : List (List Char)) (t : List Char) (rest : List Char),
    parseItems (encTag t ++ ts.flatMap (fun u => ',' :: encTag u) ++ ']' :: rest) =
      some (t :: ts, rest) := by
  intro ts
  induction ts with
  | nil =>
    intro t rest
    have key := parseStrBody_encStr t (']' :: rest)
    simp only [List.flatMap_nil, List.append_nil, encTag, List.cons_append,
      List.append_assoc, List.singleton_append, List.nil_append]
    rw [parseItems]
    split
    · rename_i heq
      rw [key] at heq
      cases heq
    · rename_i s rest2 heq
      rw [key] at heq
      injection heq with heq
      injection heq with hs hr
      subst hs
      subst hr
      split <;> simp_all
  | cons u ts ih =>
    intro t rest
    have key := parseStrBody_encStr t
      (',' :: ('"' :: (encStr u ++ '"' :: (ts.flatMap (fun v => ',' :: ('"' :: (encStr v ++ ['"']))) ++ ']' :: rest))))
    have ihu := ih u rest
    simp only [encTag, List.cons_append, List.append_assoc, List.singleton_append,
      List.flatMap_cons, List.nil_append] at ihu ⊢
    rw [parseItems]
    split
    · rename_i heq
      rw [key] at heq
      cases heq
    · rename_i s rest2 heq
      rw [key] at heq
      injection heq with heq
      injection heq with hs hr
      subst hs
      subst hr
      split <;> simp_all

/-- Decoding inverts encoding for whole tag arrays (character-list level). -/
theorem unmarshalTagsL_marshalTagsL (ts : List (List Char)) :
    unmarshalTagsL (marshalTagsL ts) = some ts := by
  cases ts with
  | nil => decide
  | cons t ts =>
    have hArr : parseArr (marshalTagsL (t :: ts)) = some (t :: ts, []) := by
      have harr := parseItems_enc ts t []
      simp only [marshalTagsL, encTag, List.cons_append, List.append_assoc,
        List.nil_append, List.singleton_append] at harr ⊢
      rw [parseArr]
      · exact harr
      · intro rest1 hbad
        simp at hbad
    rw [unmarshalTagsL]
    rw [if_neg (by simp [marshalTagsL])]
    rw [hArr]
/-- Decoding inverts encoding for the ticket's tags (string level). -/
theorem unmarshalTags_marshalTags (ts : List String) :
    unmarshalTags (marshalTags ts) = some ts := by
  rw [marshalTags, unmarshalTags]
  show (unmarshalTagsL (marshalTagsL (ts.map String.data))).map (List.map String.mk) = some ts
  rw [unmarshalTagsL_marshalTagsL]
  have hid : (String.mk ∘ String.data) = id := funext fun s => rfl
  simp [List.map_map, hid]

/-- The marshalled tags text is never the empty string. -/
theorem marshalTags_ne_empty (ts : List String) : marshalTags ts ≠ "" := by
  intro h
  have hdata : marshalTagsL (List.map String.data ts) = [] := congrArg String.data h
  cases ts <;> simp [marshalTagsL] at hdata

/-! ## Data model (`database/postgres.go`) -/

/-- Go's `sql.NullString`: a string plus a validity flag (`Valid = false`
models SQL NULL; the zero value is `⟨"", false⟩`). -/
structure NullString where
  string : String
  valid : Bool
deriving DecidableEq, Repr

/-- The `Ticket` struct of `database/postgres.go` (lines 52-63). -/
structure Ticket where
  id : String
  title : String
  description : NullString
  status : String
  priority : String
  assigneeID : NullString
  tags : List String
  createdAt : Nat
  updatedAt : Nat
  reporterID : String
deriving DecidableEq, Repr

/-- One row of the `tickets` table (`init.sql`): the persisted column values.
The JSONB `tags` column is modelled as the JSON text written to it. -/
structure Row where
  id : String
  title : String
  description : NullString
  status : String
  priority : String
  assigneeID : NullString
  tagsJSON : String
  createdAt : Nat
  updatedAt : Nat
  reporterID : String
deriving DecidableEq, Repr

/-- The `tickets` table. -/
abbrev DB := List Row

/-- Repository failures: `NotFound` (the `"ticket not found: %s"` errors, and
`sql.ErrNoRows` mapped to them) versus any other storage-layer fault. -/
inductive RepoError where
  | notFound (id : String)
  | storage
deriving DecidableEq, Repr

/-- A value stored in the Go `map[string]interface{}` of field updates: the
dispatcher only ever stores strings and string slices. -/
inductive GoValue where
  | str (s : String)
  | strList (l : List String)
deriving DecidableEq, Repr

/-- A positional SQL parameter as handed to the driver: a pass-through
`interface{}` value from the updates map, a Go `string` (the marshalled tags
JSON, or the id), or a `time.Time` (the `updated_at` value). -/
inductive SqlArg where
  | ofValue (v : GoValue)
  | ofString (s : String)
  | ofTime (t : Nat)
deriving DecidableEq, Repr

/-! ## Entity Repository (`database/postgres.go`) -/

/-- Decoding of the stored tags text when scanning a row, `postgres.go`
lines 148-154 (and the identical blocks in `List` and `Update`): the
unmarshal step is skipped when the stored text is empty, leaving the nil
(empty) slice; otherwise `json.Unmarshal` must succeed. -/
def decodeTags (tagsJSON : String) : Option (List String) :=
  if tagsJSON = "" then some []
  else unmarshalTags tagsJSON

/-- Scanning one row of the `SELECT id, title, description, status, priority,
assignee_id, tags, created_at, updated_at` projection used by `GetByID`,
`List` and `Update`'s `RETURNING` clause.  `reporter_id` is NOT part of the
projection, so the ticket's `ReporterID` keeps its Go zero value `""`.
A tags-unmarshal failure is the wrapped `StorageError`. -/
def decodeRowE (r : Row) : Except RepoError Ticket :=
  match decodeTags r.tagsJSON with
  | none => .error .storage
  | some ts =>
    .ok { id := r.id, title := r.title, description := r.description,
          status := r.status, priority := r.priority, assigneeID := r.assigneeID,
          tags := ts, createdAt := r.createdAt, updatedAt := r.updatedAt,
          reporterID := "" }

/-- Model of `TicketRepository.Create` (`postgres.go` lines 76-119): serialize the
tags to JSON, insert the row, and return the field-by-field copy of the
input ticket with id/created_at/updated_at confirmed by `RETURNING` (the
inserted values themselves).  A duplicate primary key is a storage error. -/
def repoCreate (db : DB) (t : Ticket) : Except RepoError Ticket × DB :=
  let row : Row :=
    { id := t.id, title := t.title, description := t.description,
      status := t.status, priority := t.priority, assigneeID := t.assigneeID,
      tagsJSON := marshalTags t.tags, createdAt := t.createdAt,
      updatedAt := t.updatedAt, reporterID := t.reporterID }
  if (db : List Row).any (fun r => r.id == t.id) then (.error .storage, db)
  else (.ok t, (db : List Row) ++ [row])

/-- Model of `TicketRepository.GetByID` (`postgres.go` lines 122-157): `QueryRow` on
`WHERE id = $1`, `sql.ErrNoRows` becomes the NotFound error, then the row is
scanned and its tags deserialized. -/
def repoGetByID (db : DB) (id : String) : Except RepoError Ticket :=
  match (db : List Row).find? (fun r => r.id == id) with
  | none => .error (.notFound id)
  | some r => decodeRowE r

/-- The `ORDER BY created_at DESC` ordering of `List`: larger (newer)
`created_at` first.  Ties are returned in an unspecified order by the
storage engine; the model uses a stable insertion sort. -/
def createdDescOrder (a b : Row) : Prop := b.createdAt ≤ a.createdAt

instance : DecidableRel createdDescOrder := fun a b => Nat.decLe _ _

instance : IsTotal Row createdDescOrder := ⟨fun a b => le_total b.createdAt a.createdAt⟩

instance : IsTrans Row createdDescOrder := ⟨fun _ _ _ h1 h2 => le_trans h2 h1⟩

/-- The `for rows.Next()` scan loop of `List` (`postgres.go` lines
174-201): scan each row in order, deserializing its tags, stopping at the
first failure. -/
def scanRows : List Row → Except RepoError (List Ticket)
  | [] => .ok []
  | r :: rs =>
    match decodeRowE r with
    | .error e => .error e
    | .ok t =>
      match scanRows rs with
      | .error e => .error e
      | .ok ts => .ok (t :: ts)

/-- Model of `TicketRepository.List` (`postgres.go` lines 160-208): `SELECT ...
ORDER BY created_at DESC LIMIT $1 OFFSET $2`, scanning each row and
deserializing its tags; zero rows is the valid empty result. -/
def repoList (db : DB) (limit offset : Nat) : Except RepoError (List Ticket) :=
  scanRows (((List.insertionSort createdDescOrder (db : List Row)).drop offset).take limit)

/-- Model of `TicketRepository.Delete` (`postgres.go` lines 294-312): `DELETE FROM
tickets WHERE id = $1`; zero affected rows is the NotFound error. -/
def repoDelete (db : DB) (id : String) : Except RepoError Unit × DB :=
  let db' : List Row := (db : List Row).filter (fun r => !(r.id == id))
  if (db : List Row).countP (fun r => r.id == id) = 0 then (.error (.notFound id), db')
  else (.ok (), db')

/-- The scalar string columns recognized by `Update`'s switch
(`postgres.go` line 219). -/
def scalarFields : List String := ["title", "description", "status", "priority", "assignee_id"]

/-- The `for field, value := range updates` loop of `Update` (`postgres.go`
lines 217-233), given the map entries in some iteration order and the next
positional parameter index.  For each recognized field it produces the
triple (column name, the `fmt.Sprintf("%s = $%d", field, argIndex)` SET
fragment, the appended argument); a `tags` entry whose value is not a
string slice makes the `value.([]string)` type assertion fail (`none`
models the resulting panic); unrecognized keys are silently skipped.
Returns the triples and the final `argIndex`. -/
def buildSetLoop : List (String × GoValue) → Nat →
    Option (List (String × String × SqlArg) × Nat)
  | [], argIndex => some ([], argIndex)
  | (field, value) :: rest, argIndex =>
    if field ∈ scalarFields then
      match buildSetLoop rest (argIndex + 1) with
      | some (ps, n) =>
        some ((field, field ++ " = $" ++ toString argIndex, SqlArg.ofValue value) :: ps, n)
      | none => none
    else if field = "tags" then
      match value with
      | .strList l =>
        match buildSetLoop rest (argIndex + 1) with
        | some (ps, n) =>
          some (("tags", "tags = $" ++ toString argIndex,
                 SqlArg.ofString (marshalTags l)) :: ps, n)
        | none => none
      | .str _ => none
    else buildSetLoop rest argIndex

/-- The complete SET-clause fragments of the `Update` statement: the
per-field fragments from the loop plus the mandatory trailing
`updated_at = $argIndex` (`postgres.go` line 239). -/
def updateSetParts (parts : List (String × String × SqlArg)) (argIndex : Nat) : List String :=
  parts.map (fun p => p.2.1) ++ ["updated_at = $" ++ toString argIndex]

/-- The complete positional argument list of the `Update` statement: the
per-field arguments in loop order, then `time.Now()` for `updated_at`
(line 240), then the id for the `WHERE` clause (line 259). -/
def updateArgs (parts : List (String × String × SqlArg)) (now : Nat) (id : String) :
    List SqlArg :=
  parts.map (fun p => p.2.2) ++ [SqlArg.ofTime now, SqlArg.ofString id]

/-- Whether the driver can encode the argument for its target column
(`lib/pq` client-side parameter encoding): the string columns and the JSONB
tags column take strings; `updated_at` takes the time value.  A `[]string`
passed for a scalar column cannot be encoded. -/
def colOK : String × SqlArg → Bool
  | ("updated_at", .ofTime _) => true
  | ("updated_at", _) => false
  | (_, .ofValue (.str _)) => true
  | (_, .ofString _) => true
  | (_, _) => false

/-- The string carried by an argument, if any. -/
def argAsString : SqlArg → Option String
  | .ofValue (.str s) => some s
  | .ofString s => some s
  | _ => none

/-- The effect of one `column = $i` assignment of the UPDATE statement on a
row.  Assigning a string to a nullable column stores a non-null value. -/
def applyCol (r : Row) : String × SqlArg → Option Row
  | ("updated_at", a) =>
    match a with
    | .ofTime t => some { r with updatedAt := t }
    | _ => none
  | (col, a) =>
    match argAsString a with
    | none => none
    | some s =>
      if col = "title" then some { r with title := s }
      else if col = "description" then some { r with description := ⟨s, true⟩ }
      else if col = "status" then some { r with status := s }
      else if col = "priority" then some { r with priority := s }
      else if col = "assignee_id" then some { r with assigneeID := ⟨s, true⟩ }
      else if col = "tags" then some { r with tagsJSON := s }
      else none

/-- All column assignments of the SET clause applied in order. -/
def applyCols (r : Row) (colArgs : List (String × SqlArg)) : Option Row :=
  colArgs.foldlM applyCol r

/-- Model of `TicketRepository.Update` (`postgres.go` lines 211-291): run the
SET-clause loop over the updates map; with no recognized field, degrade to
`GetByID` (lines 235-237, no write at all); otherwise append `updated_at`
and the `WHERE` id parameter, execute the single UPDATE statement, and scan
the `RETURNING` row (which, like `GetByID`, omits `reporter_id`).
`sql.ErrNoRows` — no row matches the id — becomes the NotFound error; a
parameter the driver cannot encode is a storage error (reported before the
statement runs, hence also on a missing id). -/
def repoUpdate (db : DB) (id : String) (updates : List (String × GoValue)) (now : Nat) :
    Except RepoError Ticket × DB :=
  match buildSetLoop updates 1 with
  | none => (.error .storage, db)
  | some (parts, argIndex) =>
    if parts.isEmpty then (repoGetByID db id, db)
    else
      let args := updateArgs parts now id
      let cols := parts.map (fun p => p.1) ++ ["updated_at"]
      let colArgs := cols.zip args
      let _setClause := updateSetParts parts argIndex
      let _whereIndex := argIndex + 1
      if colArgs.all colOK then
        match (db : List Row).find? (fun r => r.id == id) with
        | none => (.error (.notFound id), db)
        | some r =>
          match applyCols r colArgs with
          | none => (.error .storage, db)
          | some r' =>
            (decodeRowE r',
             (db : List Row).map (fun x => if x.id == id then (applyCols x colArgs).getD x else x))
      else (.error .storage, db)

/-! ## Operation Dispatcher (`ticket-service-db/main.go`) -/

/-- The wire-level `TicketStatus` enum.  `unknown` stands for any integer
code other than the named constants (protobuf enums are open). -/
inductive TicketStatusP where
  | unspecified
  | opened
  | inProgress
  | resolved
  | closed
  | unknown (code : Int)
deriving DecidableEq, Repr

/-- The wire-level `TicketPriority` enum.  `unknown` stands for any integer
code other than the named constants. -/
inductive TicketPriorityP where
  | unspecified
  | low
  | medium
  | high
  | critical
  | unknown (code : Int)
deriving DecidableEq, Repr

/-- Model of `convertStatusToProto` (`main.go` lines 58-71): storage string to wire
enum, any unrecognized string defaulting to OPEN. -/
def convertStatusToProto (status : String) : TicketStatusP :=
  if status = "OPEN" then .opened
  else if status = "IN_PROGRESS" then .inProgress
  else if status = "RESOLVED" then .resolved
  else if status = "CLOSED" then .closed
  else .opened

/-- Model of `convertPriorityToProto` (`main.go` lines 73-86): storage string to wire
enum, any unrecognized string defaulting to MEDIUM. -/
def convertPriorityToProto (priority : String) : TicketPriorityP :=
  if priority = "LOW" then .low
  else if priority = "MEDIUM" then .medium
  else if priority = "HIGH" then .high
  else if priority = "CRITICAL" then .critical
  else .medium

/-- Model of `convertStatusFromProto` (`main.go` lines 88-101): wire enum to storage
string; the default case maps unspecified/unknown to OPEN. -/
def convertStatusFromProto : TicketStatusP → String
  | .opened => "OPEN"
  | .inProgress => "IN_PROGRESS"
  | .resolved => "RESOLVED"
  | .closed => "CLOSED"
  | _ => "OPEN"

/-- Model of `convertPriorityFromProto` (`main.go` lines 103-116): wire enum to
storage string; the default case maps unspecified/unknown to MEDIUM. -/
def convertPriorityFromProto : TicketPriorityP → String
  | .low => "LOW"
  | .medium => "MEDIUM"
  | .high => "HIGH"
  | .critical => "CRITICAL"
  | _ => "MEDIUM"

/-- The wire-level `Ticket` message (README `proto` excerpt, fields 1-9:
it has no reporter_id field).  Optional string fields are plain strings
whose absence is the empty string, as in proto3. -/
structure ProtoTicket where
  id : String
  title : String
  description : String
  status : TicketStatusP
  priority : TicketPriorityP
  assigneeId : String
  tags : List String
  createdAt : Nat
  updatedAt : Nat
deriving DecidableEq, Repr

/-- Model of `dbTicketToProto` (`main.go` lines 36-56): copy the scalar fields,
convert the enums, and materialize the nullable description/assignee as the
empty string when NULL. -/
def dbTicketToProto (t : Ticket) : ProtoTicket :=
  { id := t.id, title := t.title,
    description := if t.description.valid then t.description.string else "",
    status := convertStatusToProto t.status,
    priority := convertPriorityToProto t.priority,
    assigneeId := if t.assigneeID.valid then t.assigneeID.string else "",
    tags := t.tags, createdAt := t.createdAt, updatedAt := t.updatedAt }

/-- Modelled from the spec: the `CreateTicketRequest` message
(`proto/ticket.proto` is not under src; §6 gives the field list
title, description?, priority, assignee_id?, tags[], reporter_id).  A
`status` field is included so that "create always forces OPEN regardless of
any status supplied" is statable; the handler never reads it. -/
structure CreateTicketRequest where
  title : String
  description : String
  status : TicketStatusP
  priority : TicketPriorityP
  assigneeId : String
  tags : List String
  reporterId : String
deriving DecidableEq, Repr

/-- Model of `CreateTicket` (`main.go` lines 119-154).  `newId` models
`uuid.New().String()` and `now` models `time.Now()`.  The handler forces
status OPEN, converts the priority, stores empty description/assignee as
NULL (the zero `sql.NullString`), and passes through to `Repository.Create`. -/
def serverCreateTicket (db : DB) (req : CreateTicketRequest) (newId : String) (now : Nat) :
    Except RepoError ProtoTicket × DB :=
  let dbTicket : Ticket :=
    { id := newId, createdAt := now, updatedAt := now, title := req.title,
      status := "OPEN", priority := convertPriorityFromProto req.priority,
      tags := req.tags, reporterID := req.reporterId,
      description := if req.description ≠ "" then ⟨req.description, true⟩ else ⟨"", false⟩,
      assigneeID := if req.assigneeId ≠ "" then ⟨req.assigneeId, true⟩ else ⟨"", false⟩ }
  match repoCreate db dbTicket with
  | (.error e, db') => (.error e, db')
  | (.ok t, db') => (.ok (dbTicketToProto t), db')

/-- Model of `GetTicket` (`main.go` lines 157-171): pass the id through to
`Repository.GetByID` and convert the result; errors propagate unchanged. -/
def serverGetTicket (db : DB) (id : String) : Except RepoError ProtoTicket :=
  (repoGetByID db id).map dbTicketToProto

/-- Model of `ListTickets` (`main.go` lines 174-203): clamp the requested page size
(≤ 0 or > 100 becomes the default 50), use offset 0 (the page token is
ignored), and convert each repository result.  `pageSize` is the wire
`int32`, hence an `Int`. -/
def serverListTickets (db : DB) (pageSize : Int) : Except RepoError (List ProtoTicket) :=
  let limit : Int := if pageSize ≤ 0 ∨ pageSize > 100 then 50 else pageSize
  (repoList db limit.toNat 0).map (List.map dbTicketToProto)

/-- The wire-level `UpdateTicketRequest` (from the handler's field reads:
id, title, description, status, priority, assignee_id, tags). -/
structure UpdateTicketRequest where
  id : String
  title : String
  description : String
  status : TicketStatusP
  priority : TicketPriorityP
  assigneeId : String
  tags : List String
deriving DecidableEq, Repr

/-- Model of `UpdateTicket` (`main.go` lines 206-243): build the field-updates map,
including each field only when present at the wire level (non-empty string,
non-unspecified enum, non-empty tag list), and pass it to
`Repository.Update`.  The entries are listed in the source's textual order;
Go map iteration order is arbitrary, and the claims proved below hold for
every order. -/
def serverUpdateTicket (db : DB) (req : UpdateTicketRequest) (now : Nat) :
    Except RepoError ProtoTicket × DB :=
  let updates : List (String × GoValue) :=
    (if req.title ≠ "" then [("title", GoValue.str req.title)] else []) ++
    (if req.description ≠ "" then [("description", GoValue.str req.description)] else []) ++
    (if req.status ≠ .unspecified then
      [("status", GoValue.str (convertStatusFromProto req.status))] else []) ++
    (if req.priority ≠ .unspecified then
      [("priority", GoValue.str (convertPriorityFromProto req.priority))] else []) ++
    (if req.assigneeId ≠ "" then [("assignee_id", GoValue.str req.assigneeId)] else []) ++
    (if req.tags.length > 0 then [("tags", GoValue.strList req.tags)] else [])
  match repoUpdate db req.id updates now with
  | (.error e, db') => (.error e, db')
  | (.ok t, db') => (.ok (dbTicketToProto t), db')

/-- The wire-level `DeleteTicketResponse`. -/
structure DeleteTicketResponse where
  success : Bool
deriving DecidableEq, Repr

/-- Model of `DeleteTicket` (`main.go` lines 246-258): any repository error is
swallowed and reported as `success = false` with a nil transport error;
otherwise `success = true`.  The `Except` layer models the handler's
`error` return value, which is `ok` (nil) on both paths. -/
def serverDeleteTicket (db : DB) (id : String) :
    Except RepoError DeleteTicketResponse × DB :=
  match repoDelete db id with
  | (.error _, db') => (.ok ⟨false⟩, db')
  | (.ok _, db') => (.ok ⟨true⟩, db')

/-! ## Sample data for concrete witnesses -/

/-- Whether a field-updates entry has the value type the Go code expects:
a `[]string` for `tags`, a `string` otherwise. -/
def entryWellTyped : String × GoValue → Bool
  | ("tags", .strList _) => true
  | ("tags", .str _) => false
  | (_, .str _) => true
  | (_, .strList _) => false

/-- A sample stored row used by concrete witnesses. -/
def sampleRow : Row :=
  { id := "t1", title := "a", description := ⟨"d", true⟩, status := "OPEN",
    priority := "MEDIUM", assigneeID := ⟨"", false⟩, tagsJSON := "[]",
    createdAt := 1, updatedAt := 1, reporterID := "alice" }

/-- A create request with an empty title, used to refute C9 as stated. -/
def emptyTitleReq : CreateTicketRequest :=
  { title := "", description := "", status := .unspecified, priority := .medium,
    assigneeId := "", tags := [], reporterId := "r" }

/-- The row that `CreateTicket` stores for `emptyTitleReq`. -/
def emptyTitleRow : Row :=
  { id := "id1", title := "", description := ⟨"", false⟩, status := "OPEN",
    priority := "MEDIUM", assigneeID := ⟨"", false⟩, tagsJSON := "[]",
    createdAt := 7, updatedAt := 7, reporterID := "r" }

/-- A stored row with a non-empty reporter, used to refute C7 as stated. -/
def reporterRow : Row :=
  { id := "t7", title := "a", description := ⟨"d", true⟩, status := "OPEN",
    priority := "HIGH", assigneeID := ⟨"", false⟩, tagsJSON := "[]",
    createdAt := 1, updatedAt := 2, reporterID := "alice" }

/-- A sample ticket with two tags, used by the C2 witness. -/
def sampleTicket : Ticket :=
  { id := "t2", title := "Fix login bug", description := ⟨"", false⟩, status := "OPEN",
    priority := "HIGH", assigneeID := ⟨"", false⟩, tags := ["bug", "auth"],
    createdAt := 3, updatedAt := 3, reporterID := "alice" }

/-- The wire form of `sampleRow` as returned by List/Get. -/
def sampleProto : ProtoTicket :=
  { id := "t1", title := "a", description := "d", status := .opened,
    priority := .medium, assigneeId := "", tags := [], createdAt := 1, updatedAt := 1 }


/-! ## Helper lemmas about the Update statement assembly -/

/-- Entries whose keys are all unrecognized contribute nothing to the SET
loop and do not advance the parameter index. -/
theorem buildSetLoop_unrecognized : ∀ (updates : List (String × GoValue)) (k : Nat),
    (∀ p ∈ updates, p.1 ∉ scalarFields ∧ p.1 ≠ "tags") →
    buildSetLoop updates k = some ([], k) := by
  intro updates
  induction updates with
  | nil => intro k _; rfl
  | cons p rest ih =>
    intro k h
    obtain ⟨f, v⟩ := p
    obtain ⟨h1, h2⟩ := h (f, v) (List.mem_cons_self _ _)
    simp only [buildSetLoop, if_neg h1, if_neg h2]
    exact ih k (fun q hq => h q (List.mem_cons_of_mem _ hq))

/-- A well-typed updates map never hits the tags type-assertion panic, and
every field argument it produces is encodable for its column. -/
theorem buildSetLoop_wellTyped : ∀ (updates : List (String × GoValue)) (k : Nat),
    updates.all entryWellTyped = true →
    ∃ parts n, buildSetLoop updates k = some (parts, n) ∧
      (parts.map (fun p => ((p.1, p.2.2) : String × SqlArg))).all colOK = true := by
  intro updates
  induction updates with
  | nil => intro k _; exact ⟨[], k, rfl, rfl⟩
  | cons p rest ih =>
    intro k h
    rw [List.all_cons, Bool.and_eq_true] at h
    obtain ⟨hp, hrest⟩ := h
    obtain ⟨parts, n, hloop, hok⟩ := ih (k + 1) hrest
    obtain ⟨f, v⟩ := p
    by_cases hf : f ∈ scalarFields
    · have hft : f ≠ "tags" := by
        intro hcontra; subst hcontra; simp [scalarFields] at hf
      obtain ⟨s, hs⟩ : ∃ s, v = GoValue.str s := by
        cases v with
        | str s => exact ⟨s, rfl⟩
        | strList l =>
          exfalso
          simp only [scalarFields, List.mem_cons, List.not_mem_nil, or_false] at hf
          rcases hf with hf | hf | hf | hf | hf <;> subst hf <;> simp [entryWellTyped] at hp
      subst hs
      refine ⟨(f, f ++ " = $" ++ toString k, SqlArg.ofValue (GoValue.str s)) :: parts, n, ?_, ?_⟩
      · simp only [buildSetLoop, if_pos hf, hloop]
      · rw [List.map_cons, List.all_cons, Bool.and_eq_true]
        refine ⟨?_, hok⟩
        simp only [scalarFields, List.mem_cons, List.not_mem_nil, or_false] at hf
        rcases hf with hf | hf | hf | hf | hf <;> subst hf <;> rfl
    · by_cases hft : f = "tags"
      · subst hft
        obtain ⟨l, hl⟩ : ∃ l, v = GoValue.strList l := by
          cases v with
          | strList l => exact ⟨l, rfl⟩
          | str s => exact absurd hp (by simp [entryWellTyped])
        subst hl
        refine ⟨("tags", "tags = $" ++ toString k,
          SqlArg.ofString (marshalTags l)) :: parts, n, ?_, ?_⟩
        · simp only [buildSetLoop, if_neg hf, if_pos rfl, hloop]
          simp
        · rw [List.map_cons, List.all_cons, Bool.and_eq_true]
          exact ⟨rfl, hok⟩
      · obtain ⟨parts', n', hloop', hok'⟩ := ih k hrest
        exact ⟨parts', n', by simp only [buildSetLoop, if_neg hf, if_neg hft, hloop'], hok'⟩

/-- The column/argument pairing used to execute the UPDATE: field columns
paired with their loop arguments, then `updated_at` with the time; the
trailing id argument is consumed by the `WHERE` clause, not by the SET
clause. -/
theorem zip_cols_updateArgs (parts : List (String × String × SqlArg)) (now : Nat) (id : String) :
    (parts.map (fun p => p.1) ++ ["updated_at"]).zip (updateArgs parts now id)
      = parts.map (fun p => ((p.1, p.2.2) : String × SqlArg))
        ++ [("updated_at", SqlArg.ofTime now)] := by
  rw [updateArgs, List.zip_append (by simp), List.zip_map']
  rfl

/-! ## Claims -/

/-- C6: Update with an empty field-updates mapping performs a pure read
equivalent to `GetByID`: it returns the existing ticket and leaves the
stored table — in particular `updated_at` — completely unchanged. -/
theorem update_empty_updates_is_getByID (db : DB) (id : String) (now : Nat) :
    repoUpdate db id [] now = (repoGetByID db id, db) := rfl

/-- C10: a non-empty field-updates mapping all of whose keys lie outside
the recognized set behaves exactly like the empty mapping: no mutation, no
`updated_at` change, result is `GetByID` — the no-op path is triggered by
the absence of recognized keys, not only by the empty mapping. -/
theorem update_unrecognized_keys_is_noop (db : DB) (id : String) (now : Nat)
    (updates : List (String × GoValue)) (hne : updates ≠ [])
    (hunrec : ∀ p ∈ updates, p.1 ∉
      (["title", "description", "status", "priority", "assignee_id", "tags"] : List String)) :
    repoUpdate db id updates now = (repoGetByID db id, db) := by
  have hloop := buildSetLoop_unrecognized updates 1 (fun p hp => by
    have h6 := hunrec p hp
    simp only [List.mem_cons, List.not_mem_nil, or_false, not_or] at h6
    refine ⟨?_, h6.2.2.2.2.2⟩
    simp only [scalarFields, List.mem_cons, List.not_mem_nil, or_false, not_or]
    exact ⟨h6.1, h6.2.1, h6.2.2.1, h6.2.2.2.1, h6.2.2.2.2.1⟩)
  simp [repoUpdate, hloop]

/-- Witness for C10 at a concrete input: an updates map carrying only the
unrecognized key `reporter_id` leaves the table untouched. -/
theorem update_unrecognized_keys_is_noop_witness :
    repoUpdate [] "t1" [("reporter_id", GoValue.str "x")] 5 = (repoGetByID [] "t1", []) :=
  update_unrecognized_keys_is_noop [] "t1" 5 [("reporter_id", GoValue.str "x")]
    (by simp) (by simp)

/-- C1: updating only the title rewrites, in every row matching the id, the
`title` and `updated_at` columns and nothing else — description, status,
priority, assignee_id, tags, reporter_id, id and created_at keep their
pre-update values — and returns the post-update row. -/
theorem update_title_frame (db : DB) (id t : String) (now : Nat) (r : Row)
    (h : (db : List Row).find? (fun x => x.id == id) = some r) :
    repoUpdate db id [("title", GoValue.str t)] now =
      (decodeRowE { r with title := t, updatedAt := now },
       (db : List Row).map
         (fun x => if x.id == id then { x with title := t, updatedAt := now } else x)) := by
  simp [repoUpdate, buildSetLoop, scalarFields, updateArgs, updateSetParts, h,
    applyCols, applyCol, argAsString, colOK, List.foldlM]

/-- Witness for C1 at a concrete input. -/
theorem update_title_frame_witness :
    repoUpdate [sampleRow] "t1" [("title", GoValue.str "b")] 5 =
      (decodeRowE { sampleRow with title := "b", updatedAt := 5 },
       List.map (fun x => if x.id == "t1" then { x with title := "b", updatedAt := 5 } else x)
         [sampleRow]) :=
  update_title_frame [sampleRow] "t1" "b" 5 sampleRow rfl

/-- C4: for an id with no stored ticket, `GetByID` and `Update` (with a
non-empty, well-typed updates map) both fail with the NotFound error, while
the `DeleteTicket` handler returns `success = false` with a nil transport
error; for an existing id, `DeleteTicket` deletes the row(s) with that id
and returns `success = true`. -/
theorem notFound_propagation_and_delete (db : DB) (id : String)
    (h : (db : List Row).find? (fun r => r.id == id) = none) :
    repoGetByID db id = .error (.notFound id)
    ∧ (∀ (updates : List (String × GoValue)) (now : Nat), updates ≠ [] →
        updates.all entryWellTyped = true →
        (repoUpdate db id updates now).1 = .error (.notFound id))
    ∧ serverDeleteTicket db id = (.ok ⟨false⟩, db)
    ∧ (∀ (db2 : DB) (r : Row), (db2 : List Row).find? (fun x => x.id == id) = some r →
        serverDeleteTicket db2 id =
          (.ok ⟨true⟩, (db2 : List Row).filter (fun x => !(x.id == id)))) := by
  have hget : repoGetByID db id = .error (.notFound id) := by
    simp [repoGetByID, h]
  have hnone : ∀ r ∈ (db : List Row), ¬(r.id == id) = true := by
    intro r hr
    exact List.find?_eq_none.mp h r hr
  refine ⟨hget, ?_, ?_, ?_⟩
  · intro updates now _ hwt
    obtain ⟨parts, n, hloop, hok⟩ := buildSetLoop_wellTyped updates 1 hwt
    by_cases hparts : parts.isEmpty
    · simp [repoUpdate, hloop, hparts, hget]
    · have hall : ((parts.map (fun p => p.1) ++ ["updated_at"]).zip
          (updateArgs parts now id)).all colOK = true := by
        rw [zip_cols_updateArgs, List.all_append]
        rw [hok]
        rfl
      simp [repoUpdate, hloop, hparts, hall, h]
  · have hcount : (db : List Row).countP (fun r => r.id == id) = 0 := by
      rw [List.countP_eq_zero]
      intro r hr
      simpa using hnone r hr
    have hfilter : (db : List Row).filter (fun r => !(r.id == id)) = db := by
      rw [List.filter_eq_self]
      intro r hr
      simpa using hnone r hr
    simp [serverDeleteTicket, repoDelete, hcount, hfilter]
  · intro db2 r hfind
    have hmem := List.mem_of_find?_eq_some hfind
    have hpr := List.find?_some hfind
    have hcount : (db2 : List Row).countP (fun x => x.id == id) ≠ 0 := by
      have : 0 < (db2 : List Row).countP (fun x => x.id == id) :=
        List.countP_pos_iff.mpr ⟨r, hmem, hpr⟩
      omega
    simp [serverDeleteTicket, repoDelete, hcount]

/-- Witness for C4 at concrete inputs: an empty table for the missing-id
parts, a one-row table for the existing-id delete. -/
theorem notFound_propagation_and_delete_witness :
    repoGetByID [] "zz" = .error (.notFound "zz")
    ∧ (repoUpdate [] "zz" [("title", GoValue.str "b")] 5).1 = .error (.notFound "zz")
    ∧ serverDeleteTicket [] "zz" = (.ok ⟨false⟩, [])
    ∧ serverDeleteTicket [{ sampleRow with id := "zz" }] "zz" =
        (.ok ⟨true⟩,
         List.filter (fun x => !(x.id == "zz")) [{ sampleRow with id := "zz" }]) := by
  obtain ⟨h1, h2, h3, h4⟩ := notFound_propagation_and_delete [] "zz" rfl
  exact ⟨h1, h2 [("title", GoValue.str "b")] 5 (by simp) (by decide), h3,
    h4 [{ sampleRow with id := "zz" }] { sampleRow with id := "zz" } rfl⟩

/-- C3: create normalization — the stored ticket's status is the string
OPEN no matter what status the request carried; its priority is the storage
string of the requested priority, with unspecified and unknown priorities
mapping to MEDIUM; an empty description or assignee_id input is stored as
NULL, a non-empty one as a present value. -/
theorem create_normalization (db : DB) (req : CreateTicketRequest)
    (newId : String) (now : Nat) (hfresh : ∀ r ∈ (db : List Row), r.id ≠ newId) :
    ∃ row : Row,
      (serverCreateTicket db req newId now).2 = (db : List Row) ++ [row]
      ∧ row.status = "OPEN"
      ∧ row.priority = convertPriorityFromProto req.priority
      ∧ convertPriorityFromProto .unspecified = "MEDIUM"
      ∧ (∀ code : Int, convertPriorityFromProto (.unknown code) = "MEDIUM")
      ∧ (req.description = "" → row.description = ⟨"", false⟩)
      ∧ (req.description ≠ "" → row.description = ⟨req.description, true⟩)
      ∧ (req.assigneeId = "" → row.assigneeID = ⟨"", false⟩)
      ∧ (req.assigneeId ≠ "" → row.assigneeID = ⟨req.assigneeId, true⟩) := by
  have hany : (db : List Row).any (fun r => r.id == newId) = false := by
    rw [List.any_eq_false]
    intro r hr
    simpa using hfresh r hr
  refine ⟨{ id := newId, title := req.title,
            description := if req.description ≠ "" then ⟨req.description, true⟩ else ⟨"", false⟩,
            status := "OPEN", priority := convertPriorityFromProto req.priority,
            assigneeID := if req.assigneeId ≠ "" then ⟨req.assigneeId, true⟩ else ⟨"", false⟩,
            tagsJSON := marshalTags req.tags, createdAt := now, updatedAt := now,
            reporterID := req.reporterId }, ?_, rfl, rfl, rfl, fun _ => rfl, ?_, ?_, ?_, ?_⟩
  · simp [serverCreateTicket, repoCreate, hany]
  · intro hd; simp [hd]
  · intro hd; simp [hd]
  · intro hd; simp [hd]
  · intro hd; simp [hd]

/-- Witness for C3 at a concrete input (status CLOSED supplied on create,
unspecified priority, empty description, non-empty assignee). -/
theorem create_normalization_witness :
    ∃ row : Row,
      (serverCreateTicket []
        { title := "x", description := "", status := .closed, priority := .unspecified,
          assigneeId := "u", tags := [], reporterId := "r" } "id1" 7).2 = [] ++ [row]
      ∧ row.status = "OPEN"
      ∧ row.priority = convertPriorityFromProto .unspecified
      ∧ convertPriorityFromProto .unspecified = "MEDIUM"
      ∧ (∀ code : Int, convertPriorityFromProto (.unknown code) = "MEDIUM")
      ∧ ((("" : String) = "") → row.description = ⟨"", false⟩)
      ∧ ((("" : String) ≠ "") → row.description = ⟨"", true⟩)
      ∧ ((("u" : String) = "") → row.assigneeID = ⟨"", false⟩)
      ∧ ((("u" : String) ≠ "") → row.assigneeID = ⟨"u", true⟩) :=
  create_normalization []
    { title := "x", description := "", status := .closed, priority := .unspecified,
      assigneeId := "u", tags := [], reporterId := "r" } "id1" 7 (by simp)

/-- Counterexample to C9 as stated: `CreateTicket` performs no title
validation, so a request with an empty title succeeds and stores a ticket
whose title is the empty string. -/
theorem create_empty_title_stored :
    serverCreateTicket [] emptyTitleReq "id1" 7 =
      (.ok (dbTicketToProto
        { id := "id1", title := "", description := ⟨"", false⟩, status := "OPEN",
          priority := "MEDIUM", assigneeID := ⟨"", false⟩, tags := [],
          createdAt := 7, updatedAt := 7, reporterID := "r" }), [emptyTitleRow])
    ∧ emptyTitleRow.title = "" := ⟨rfl, rfl⟩

/-- C9 amended: the stored ticket's title is exactly the request's title,
verbatim and unvalidated — in particular an empty request title is stored
as an empty title. -/
theorem create_title_verbatim (db : DB) (req : CreateTicketRequest)
    (newId : String) (now : Nat) (hfresh : ∀ r ∈ (db : List Row), r.id ≠ newId) :
    ∃ row : Row,
      (serverCreateTicket db req newId now).2 = (db : List Row) ++ [row]
      ∧ row.title = req.title := by
  have hany : (db : List Row).any (fun r => r.id == newId) = false := by
    rw [List.any_eq_false]
    intro r hr
    simpa using hfresh r hr
  refine ⟨{ id := newId, title := req.title,
            description := if req.description ≠ "" then ⟨req.description, true⟩ else ⟨"", false⟩,
            status := "OPEN", priority := convertPriorityFromProto req.priority,
            assigneeID := if req.assigneeId ≠ "" then ⟨req.assigneeId, true⟩ else ⟨"", false⟩,
            tagsJSON := marshalTags req.tags, createdAt := now, updatedAt := now,
            reporterID := req.reporterId }, ?_, rfl⟩
  simp [serverCreateTicket, repoCreate, hany]

/-- Witness for the amended C9 at a concrete input. -/
theorem create_title_verbatim_witness :
    ∃ row : Row,
      (serverCreateTicket [] emptyTitleReq "id1" 7).2 = [] ++ [row]
      ∧ row.title = emptyTitleReq.title :=
  create_title_verbatim [] emptyTitleReq "id1" 7 (by simp)

/-- Counterexample to C7 as stated: `GetByID`'s SELECT list omits
`reporter_id`, so the returned ticket's reporter is the Go zero value `""`
even though the stored row's reporter is `"alice"`. -/
theorem getByID_drops_reporter :
    repoGetByID [reporterRow] "t7" =
      .ok { id := "t7", title := "a", description := ⟨"d", true⟩, status := "OPEN",
            priority := "HIGH", assigneeID := ⟨"", false⟩, tags := [],
            createdAt := 1, updatedAt := 2, reporterID := "" }
    ∧ reporterRow.reporterID = "alice"
    ∧ ({ id := "t7", title := "a", description := ⟨"d", true⟩, status := "OPEN",
         priority := "HIGH", assigneeID := ⟨"", false⟩, tags := [],
         createdAt := 1, updatedAt := 2, reporterID := "" } : Ticket).reporterID
        ≠ reporterRow.reporterID := ⟨rfl, rfl, by decide⟩

/-- C7 amended: `GetByID` returns every attribute of the stored row except
`reporter_id` — id, title, description, status, priority, assignee_id,
created_at, updated_at equal their stored values and the tags are
deserialized from the stored JSON — while `reporter_id` is always the empty
string, because the SELECT projection omits it. -/
theorem getByID_complete_except_reporter (db : DB) (id : String) (r : Row)
    (ts : List String) (h : (db : List Row).find? (fun x => x.id == id) = some r)
    (hts : decodeTags r.tagsJSON = some ts) :
    repoGetByID db id =
      .ok { id := r.id, title := r.title, description := r.description,
            status := r.status, priority := r.priority, assigneeID := r.assigneeID,
            tags := ts, createdAt := r.createdAt, updatedAt := r.updatedAt,
            reporterID := "" } := by
  simp [repoGetByID, h, decodeRowE, hts]

/-- Witness for the amended C7 at a concrete input. -/
theorem getByID_complete_except_reporter_witness :
    repoGetByID [reporterRow] "t7" =
      .ok { id := reporterRow.id, title := reporterRow.title,
            description := reporterRow.description, status := reporterRow.status,
            priority := reporterRow.priority, assigneeID := reporterRow.assigneeID,
            tags := [], createdAt := reporterRow.createdAt,
            updatedAt := reporterRow.updatedAt, reporterID := "" } :=
  getByID_complete_except_reporter [reporterRow] "t7" reporterRow [] rfl rfl

/-- C2: tags round-trip — creating a ticket with any tag sequence (the
repository serializes it to a JSON array string) and then getting the
ticket by id returns a tag sequence equal to the original, element for
element, in the same order. -/
theorem tags_roundtrip (db : DB) (t : Ticket)
    (hfresh : ∀ r ∈ (db : List Row), r.id ≠ t.id) :
    ∃ (db' : DB) (g : Ticket),
      repoCreate db t = (.ok t, db') ∧ repoGetByID db' t.id = .ok g ∧ g.tags = t.tags := by
  have hany : (db : List Row).any (fun r => r.id == t.id) = false := by
    rw [List.any_eq_false]
    intro r hr
    simpa using hfresh r hr
  have hfind : ((db : List Row).find? (fun r => r.id == t.id)) = none := by
    rw [List.find?_eq_none]
    intro r hr
    simpa using hfresh r hr
  have hcreate : repoCreate db t =
      (.ok t, (db : List Row) ++
        [{ id := t.id, title := t.title, description := t.description, status := t.status,
           priority := t.priority, assigneeID := t.assigneeID,
           tagsJSON := marshalTags t.tags, createdAt := t.createdAt,
           updatedAt := t.updatedAt, reporterID := t.reporterID }]) := by
    simp [repoCreate, hany]
  refine ⟨_, { id := t.id, title := t.title, description := t.description, status := t.status,
               priority := t.priority, assigneeID := t.assigneeID, tags := t.tags,
               createdAt := t.createdAt, updatedAt := t.updatedAt, reporterID := "" },
          hcreate, ?_, rfl⟩
  rw [repoGetByID]
  rw [List.find?_append, hfind, Option.none_or]
  rw [show (List.find? (fun r => r.id == t.id)
      [{ id := t.id, title := t.title, description := t.description, status := t.status,
         priority := t.priority, assigneeID := t.assigneeID,
         tagsJSON := marshalTags t.tags, createdAt := t.createdAt,
         updatedAt := t.updatedAt, reporterID := t.reporterID }] : Option Row) =
      some { id := t.id, title := t.title, description := t.description, status := t.status,
             priority := t.priority, assigneeID := t.assigneeID,
             tagsJSON := marshalTags t.tags, createdAt := t.createdAt,
             updatedAt := t.updatedAt, reporterID := t.reporterID } from by
    simp [List.find?_cons]]
  have hdec : decodeTags (marshalTags t.tags) = some t.tags := by
    rw [decodeTags, if_neg (marshalTags_ne_empty t.tags), unmarshalTags_marshalTags]
  simp [decodeRowE, hdec]

/-- Witness for C2 at a concrete input: tags `["bug", "auth"]` survive
Create followed by GetByID unchanged. -/
theorem tags_roundtrip_witness :
    ∃ (db' : DB) (g : Ticket),
      repoCreate [] sampleTicket = (.ok sampleTicket, db')
      ∧ repoGetByID db' sampleTicket.id = .ok g ∧ g.tags = sampleTicket.tags :=
  tags_roundtrip [] sampleTicket (by simp)

/-- Scanning a row preserves its creation timestamp. -/
theorem decodeRowE_createdAt {r : Row} {t : Ticket} (h : decodeRowE r = .ok t) :
    t.createdAt = r.createdAt := by
  cases hdt : decodeTags r.tagsJSON with
  | none => simp [decodeRowE, hdt] at h
  | some ts =>
    simp only [decodeRowE, hdt] at h
    cases h
    rfl

/-- Scanning a whole result set: a successful scan preserves the number of
rows, every ticket comes from some row, and a creation-time-descending row
order yields a creation-time-descending ticket order. -/
theorem scanRows_spec : ∀ (rows : List Row) (l : List Ticket),
    scanRows rows = Except.ok l →
    l.length = rows.length
    ∧ (∀ t ∈ l, ∃ r ∈ rows, decodeRowE r = .ok t)
    ∧ (List.Pairwise createdDescOrder rows →
        List.Pairwise (fun a b : Ticket => b.createdAt ≤ a.createdAt) l) := by
  intro rows
  induction rows with
  | nil =>
    intro l h
    cases h
    simp
  | cons r rows ih =>
    intro l h
    rw [scanRows] at h
    cases hr : decodeRowE r with
    | error e => rw [hr] at h; cases h
    | ok t =>
      rw [hr] at h
      cases hrs : scanRows rows with
      | error e => rw [hrs] at h; cases h
      | ok ts =>
        rw [hrs] at h
        cases h
        obtain ⟨hlen, hmem, hpair⟩ := ih ts hrs
        refine ⟨by simp [hlen], ?_, ?_⟩
        · intro t' ht'
          rcases List.mem_cons.mp ht' with h1 | h1
          · exact ⟨r, List.mem_cons_self _ _, h1 ▸ hr⟩
          · obtain ⟨r', hr', hdr'⟩ := hmem t' h1
            exact ⟨r', List.mem_cons_of_mem _ hr', hdr'⟩
        · intro hp
          rw [List.pairwise_cons] at hp ⊢
          refine ⟨?_, hpair hp.2⟩
          intro b hb
          obtain ⟨r', hr', hdr'⟩ := hmem b hb
          have h1 : b.createdAt = r'.createdAt := decodeRowE_createdAt hdr'
          have h2 : t.createdAt = r.createdAt := decodeRowE_createdAt hr
          have h3 : r'.createdAt ≤ r.createdAt := hp.1 r' hr'
          omega

/-- C5: pagination — the effective limit is 50 when the requested page size
is ≤ 0 or > 100 and the requested page size otherwise; the offset is always
0 (the result is the first `eff` rows of the ordering); the result holds at
most `eff` tickets, ordered by `created_at` descending (newest first); and
an empty table yields an empty, non-error result. -/
theorem list_pagination (db : DB) (pageSize eff : Int)
    (heff : eff = if pageSize ≤ 0 ∨ pageSize > 100 then 50 else pageSize) :
    serverListTickets db pageSize
      = (repoList db eff.toNat 0).map (List.map dbTicketToProto)
    ∧ (∀ l, serverListTickets db pageSize = .ok l →
        l.length ≤ eff.toNat
        ∧ List.Pairwise (fun a b : ProtoTicket => b.createdAt ≤ a.createdAt) l)
    ∧ serverListTickets ([] : DB) pageSize = .ok [] := by
  subst heff
  refine ⟨rfl, ?_, ?_⟩
  · intro l h
    rw [serverListTickets] at h
    set eff : Int := if pageSize ≤ 0 ∨ pageSize > 100 then 50 else pageSize with heff
    cases hrep : repoList db eff.toNat 0 with
    | error e => rw [hrep] at h; cases h
    | ok l0 =>
      rw [hrep] at h
      cases h
      rw [repoList] at hrep
      obtain ⟨hlen, _, hpair⟩ := scanRows_spec _ _ hrep
      constructor
      · rw [List.length_map, hlen, List.length_take]
        exact le_trans (Nat.min_le_left _ _) (le_refl _)
      · have hsorted : List.Pairwise createdDescOrder
            (((List.insertionSort createdDescOrder (db : List Row)).drop 0).take eff.toNat) := by
          refine List.Pairwise.sublist ?_ (List.sorted_insertionSort createdDescOrder db)
          exact List.Sublist.trans (List.take_sublist _ _) (List.drop_sublist _ _)
        rw [List.pairwise_map]
        exact hpair hsorted
  · show Except.map (List.map dbTicketToProto) (repoList [] _ 0) = Except.ok []
    rw [show repoList [] _ 0 = Except.ok [] from by
      simp [repoList, List.insertionSort, scanRows]]
    rfl

/-- Witness for C5 at a concrete input: a one-row table listed with
requested page size 1000 (clamped to 50) returns that row, within the
bound and correctly ordered. -/
theorem list_pagination_witness :
    ([sampleProto] : List ProtoTicket).length ≤ (50 : Int).toNat
    ∧ List.Pairwise (fun a b : ProtoTicket => b.createdAt ≤ a.createdAt) [sampleProto] :=
  (list_pagination [sampleRow] 1000 50 (by norm_num)).2.1 [sampleProto] (by rfl)

/-- Structure of a successful SET-clause loop run: the final parameter
index is the start index plus the number of recognized fields, and the
fragment built for the i-th recognized field (0-based) uses parameter
`$(start + i)`. -/
theorem buildSetLoop_spec : ∀ (updates : List (String × GoValue)) (k : Nat)
    (parts : List (String × String × SqlArg)) (n : Nat),
    buildSetLoop updates k = some (parts, n) →
    n = k + parts.length
    ∧ ∀ i (h : i < parts.length),
        (parts.get ⟨i, h⟩).2.1 = (parts.get ⟨i, h⟩).1 ++ " = $" ++ toString (k + i) := by
  intro updates
  induction updates with
  | nil =>
    intro k parts n h
    cases h
    exact ⟨rfl, fun i h => absurd h (by simp)⟩
  | cons p rest ih =>
    intro k parts n h
    obtain ⟨f, v⟩ := p
    simp only [buildSetLoop] at h
    by_cases hf : f ∈ scalarFields
    · rw [if_pos hf] at h
      cases hloop : buildSetLoop rest (k + 1) with
      | none => rw [hloop] at h; cases h
      | some pn =>
        obtain ⟨ps, m⟩ := pn
        rw [hloop] at h
        cases h
        obtain ⟨hn, hidx⟩ := ih (k + 1) ps n hloop
        refine ⟨by simp only [List.length_cons]; omega, ?_⟩
        intro i hi
        cases i with
        | zero => simp
        | succ j =>
          have hj : j < ps.length := by simpa using hi
          have hthis := hidx j hj
          have harith : k + (j + 1) = (k + 1) + j := by omega
          simp only [List.get_cons_succ]
          rw [harith]
          exact hthis
    · rw [if_neg hf] at h
      by_cases hft : f = "tags"
      · rw [if_pos hft] at h
        cases v with
        | str s => cases h
        | strList l =>
          cases hloop : buildSetLoop rest (k + 1) with
          | none => rw [hloop] at h; cases h
          | some pn =>
            obtain ⟨ps, m⟩ := pn
            rw [hloop] at h
            cases h
            obtain ⟨hn, hidx⟩ := ih (k + 1) ps n hloop
            refine ⟨by simp only [List.length_cons]; omega, ?_⟩
            intro i hi
            cases i with
            | zero => simp
            | succ j =>
              have hj : j < ps.length := by simpa using hi
              have hthis := hidx j hj
              have harith : k + (j + 1) = (k + 1) + j := by omega
              simp only [List.get_cons_succ]
              rw [harith]
              exact hthis
      · rw [if_neg hft] at h
        exact ih k parts n h

/-- C8: for every non-empty recognized field-updates mapping, each included
field consumes exactly one positional parameter slot whose index matches
its position in the SET clause (field i, 0-based, uses `$(i+1)`), and the
`updated_at` parameter and the id (WHERE) parameter are appended after all
field parameters, in that fixed relative order — positions `parts.length`
and `parts.length + 1` of the argument list, bound to `$(parts.length + 1)`
and `$(parts.length + 2)` — regardless of which fields are present. -/
theorem update_param_indices (updates : List (String × GoValue))
    (parts : List (String × String × SqlArg)) (n now : Nat) (id : String)
    (hloop : buildSetLoop updates 1 = some (parts, n)) (hne : parts ≠ []) :
    (∀ i (h : i < parts.length),
        (parts.get ⟨i, h⟩).2.1 = (parts.get ⟨i, h⟩).1 ++ " = $" ++ toString (i + 1))
    ∧ n = parts.length + 1
    ∧ updateSetParts parts n
        = parts.map (fun p => p.2.1) ++ ["updated_at = $" ++ toString (parts.length + 1)]
    ∧ (updateArgs parts now id).length = parts.length + 2
    ∧ (∀ i (h : i < parts.length),
        (updateArgs parts now id)[i]? = some (parts.get ⟨i, h⟩).2.2)
    ∧ (updateArgs parts now id)[parts.length]? = some (SqlArg.ofTime now)
    ∧ (updateArgs parts now id)[parts.length + 1]? = some (SqlArg.ofString id) := by
  obtain ⟨hn, hidx⟩ := buildSetLoop_spec updates 1 parts n hloop
  have hn' : n = parts.length + 1 := by omega
  refine ⟨?_, hn', by rw [hn', updateSetParts], ?_, ?_, ?_, ?_⟩
  · intro i h
    have := hidx i h
    simpa [Nat.add_comm] using this
  · simp [updateArgs]
  · intro i h
    rw [updateArgs, List.getElem?_append_left (by simpa using h)]
    simp [List.getElem?_map, h]
  · rw [updateArgs, List.getElem?_append_right (by simp)]
    simp
  · rw [updateArgs, List.getElem?_append_right (by simp)]
    simp

/-- Witness for C8 at a concrete input: updates carrying title and tags
produce `title = $1`, `tags = $2`, `updated_at` bound to `$3` (argument
position 2) and the WHERE id bound to `$4` (argument position 3). -/
theorem update_param_indices_witness :
    (([("title", "title = $1", SqlArg.ofValue (GoValue.str "x")),
       ("tags", "tags = $2", SqlArg.ofString "[\"a\"]")]
        : List (String × String × SqlArg)).get ⟨1, by norm_num⟩).2.1
      = (([("title", "title = $1", SqlArg.ofValue (GoValue.str "x")),
          ("tags", "tags = $2", SqlArg.ofString "[\"a\"]")]
           : List (String × String × SqlArg)).get ⟨1, by norm_num⟩).1 ++ " = $" ++ toString (1 + 1)
    ∧ (3 : Nat) = 2 + 1
    ∧ (updateArgs [("title", "title = $1", SqlArg.ofValue (GoValue.str "x")),
        ("tags", "tags = $2", SqlArg.ofString "[\"a\"]")] 5 "t1")[2]?
        = some (SqlArg.ofTime 5)
    ∧ (updateArgs [("title", "title = $1", SqlArg.ofValue (GoValue.str "x")),
        ("tags", "tags = $2", SqlArg.ofString "[\"a\"]")] 5 "t1")[3]?
        = some (SqlArg.ofString "t1") := by
  have h := update_param_indices
    [("title", GoValue.str "x"), ("tags", GoValue.strList ["a"])]
    [("title", "title = $1", SqlArg.ofValue (GoValue.str "x")),
     ("tags", "tags = $2", SqlArg.ofString "[\"a\"]")] 3 5 "t1" rfl (by simp)
  exact ⟨h.1 1 (by norm_num), h.2.1, h.2.2.2.2.2.1, h.2.2.2.2.2.2⟩
